import Mathlib

/-
  Verification of the Forth engine in src/main.c (a C adaptation of JONESFORTH).

  Shallow embedding conventions:
  * C strings are `List Nat` of byte values (without the terminating null byte);
    the program only handles ASCII text, so a byte list is a faithful view.
  * Machine cells are `u64` in C but are manipulated as `i64` by every arithmetic
    primitive; we represent a cell as an `Int` in the two's-complement window
    [-2^63, 2^63).  Where C arithmetic can wrap, `wrap64` applies the explicit
    two's-complement reduction.
  * Machine addresses are `Int`s measured in bytes, exactly as in C; one cell is
    8 bytes.  The dictionary arena starts at the (arbitrary, nonzero) base
    address `wordsBase`; a handful of distinguished negative constants stand for
    the machine addresses of objects outside the arena (the engine's `here` and
    `latest` struct fields, the tokenizer's static buffer, and `stdin`).
  * The input stream abstraction (`FILE*`) is modelled by a map from stream
    handles to the list of bytes not yet consumed; EOF is the end of the list.
    (C truncates `fgetc`'s result to `char` before comparing with EOF, so a 0xFF
    byte would be conflated with end of file; inputs are assumed ASCII, as the
    spec requires, so the conflation never triggers.)
  * Failure: every C `assert` is modelled as an `Except.error` with kind
    `assertFail` (a failed assert aborts the process), `exit(EXIT_FAILURE)` as
    kind `exitFailure`, and operations whose C counterpart reads or writes
    memory that the model does not track (or divides by zero, which traps on
    real hardware) as kind `ub`.  The error also carries the engine state at
    the point of failure so that diagnostics printed before the abort are
    observable.
-/

namespace Forth

/-- Bytes of an ASCII string literal. -/
def strBytes (s : String) : List Nat := s.toList.map Char.toNat

/-- C `isspace` in the default locale, on ASCII bytes: HT, LF, VT, FF, CR, SP. -/
def isspace (c : Nat) : Bool := c = 32 || (9 ≤ c && c ≤ 13)

/-- C `isdigit` on ASCII bytes. -/
def isdigit (c : Nat) : Bool := 48 ≤ c && c ≤ 57

/-- Two's-complement reduction of an integer into the `i64` window
    [-9223372036854775808, 9223372036854775808).  C signed overflow is
    undefined behaviour; the generated code wraps, which is what this models. -/
def wrap64 (n : Int) : Int :=
  (n + 9223372036854775808) % 18446744073709551616 - 9223372036854775808

/-- The digit-accumulation loop of `parse_number` (src/main.c:152-160):
    `while(*txt) { if(isdigit(*txt)) n = 10*n + (*txt - '0'); else return false; }`
    on an `i64` accumulator. -/
def parse_digits : List Nat → Int → Option Int
  | [], n => some n
  | c :: rest, n =>
    if isdigit c then parse_digits rest (wrap64 (10 * n + ((c : Int) - 48))) else none

/-- `parse_number` (src/main.c:138-164).  Returns `some value` where C returns
    `true` and writes `*num`; `none` where C returns `false`.  The C negative
    flag is folded into the two branches on the leading minus byte (45). -/
def parse_number (txt : List Nat) : Option Int :=
  match txt with
  | [] => none                                   -- strlen(txt) == 0
  | c :: rest =>
    if c = 45 then                               -- leading minus sign
      match rest with
      | [] => none                               -- "-" alone: strlen(txt) == 0 after txt++
      | _ :: _ =>
        match parse_digits rest 0 with
        | none => none
        | some n => some (wrap64 (-n))           -- *num = negative ? -n : n
    else
      match parse_digits txt 0 with
      | none => none
      | some n => some n

/-- The part of a token that must be all digits: everything after an optional
    leading minus sign. -/
def stripMinus (s : List Nat) : List Nat :=
  match s with
  | [] => []
  | c :: t => if c = 45 then t else c :: t

/-- One step of `parse_number`'s accumulation, `n = 10 * n + digit`, on a
    wrapping `i64`. -/
def wstep (x : Int) (d : Nat) : Int := wrap64 (10 * x + (d : Int))

/-- The same step with exact integer arithmetic. -/
def pstep (x : Int) (d : Nat) : Int := 10 * x + (d : Int)

/-- Standard base-10 rendering of a natural number as ASCII bytes
    (most significant digit first; 0 renders as "0"). -/
def format_nat (m : Nat) : List Nat :=
  if m = 0 then [48] else ((Nat.digits 10 m).reverse).map (fun d => d + 48)

/-- Standard base-10 rendering of an integer: optional minus sign (byte 45)
    followed by the digits.  This is the `%ld` rendering used by the engine's
    own output and the "base-10 rendering" the spec's round-trip property
    quantifies over. -/
def format (n : Int) : List Nat :=
  if n < 0 then 45 :: format_nat (-n).toNat else format_nat n.toNat

/-- `interp_state_t` (src/main.c:42-45).  In C, `NORMAL_STATE = 0`,
    `COMPILE_STATE = 1`. -/
inductive interp_state_t
  | NORMAL_STATE
  | COMPILE_STATE
deriving DecidableEq

/-- The native primitive functions of the engine, one constructor per C
    function installed by `new_forth` (src/main.c:692-749).  A C "codeword" is
    a function pointer; two codeword cells are equal exactly when they point at
    the same function, which this enumeration captures. -/
inductive prim_t
  | dostack_size | dup | over | drop | swap
  | add | mult | sub | divmod | eq | lt | gt | leq | geq
  | donot | doand | door
  | docol | doexit | is_compiling | set_immediate_mode | set_compile_mode
  | doerror | dorun_word | docodeword
  | key | emit | word | tell | doparse_number | dofind_word
  | colon | semicolon | comma | tick
  | here | latest | fetch | store
  | lit | branch | zero_branch | immediate
  | dostdin | set_input_stream | get_input_stream | close_file | open_read_file
  | printstack | printwords | dumpwords
deriving DecidableEq

/-- One dictionary word record (the layout described in src/main.c:18-24).
    The `link` field is represented by the list structure of the dictionary
    (head = `LATEST`, tail = the rest of the chain); `addr` is the machine
    address of the record's first byte in the arena; `code` is the content of
    the codeword cell (`docol` for colon-defined words); `body` is the list of
    cells appended after the codeword. -/
structure word_t where
  flags : Nat
  name : List Nat
  code : prim_t
  body : List Int
  addr : Int
deriving DecidableEq

/-- `forth_t` (src/main.c:49-77) together with the observables the model
    tracks.  `stack`/`rstack` hold the cells with the TOP OF STACK FIRST
    (`f->top_stack[-1]` is the head).  `here` and `latest` hold the raw values
    of the two cursor fields (machine addresses; `latest = 0` is NULL).
    `dict` is the word-record chain hanging off `latest`, most recent first.
    `mem` is the cell-addressable machine memory used by the threaded-code
    registers (a read at byte address `a` yields the cell stored there); the
    contents of word bodies are tracked in `dict`, not in `mem`.
    `streams` maps each open stream handle to its unread bytes and
    `input_stream` is the handle of the active stream.  `out` is everything
    written to standard output, and `buf` is the tokenizer's static 64-byte
    buffer (as the C string it holds).  `fopen_result` is the environment's
    response to `fopen(path, "r")`: `none` models a NULL return. -/
structure forth_t where
  stack : List Int
  rstack : List Int
  word_size : Nat
  stack_size : Nat
  rstack_size : Nat
  here : Int
  latest : Int
  dict : List word_t
  input_stream : Int
  streams : Int → List Nat
  fopen_result : List Nat → Option Int
  state : interp_state_t
  next : Int
  current : Int
  mem : Int → Int
  out : List Nat
  buf : List Nat

/-- How a run of the engine can terminate abnormally: a failed `assert`
    (abort), `exit(EXIT_FAILURE)` from the `error` primitive, or an operation
    that is undefined behaviour in the C source (reads of memory the model
    does not track, division by zero). -/
inductive errkind
  | assertFail
  | exitFailure
  | ub
deriving DecidableEq

/-- Result of a primitive: either the updated engine, or abnormal termination
    carrying the engine state at the point of failure (so that diagnostics
    printed before an abort remain observable). -/
abbrev M := Except (errkind × forth_t) forth_t

/-- Machine address of the engine's `here` field (`&f->here`); any fixed
    address outside the arena models it. -/
def addrHere : Int := -8

/-- Machine address of the engine's `latest` field (`&f->latest`). -/
def addrLatest : Int := -16

/-- Machine address of the tokenizer's static 64-byte buffer. -/
def bufAddr : Int := -128

/-- The `FILE*` value of `stdin`. -/
def stdinHandle : Int := -256

/-- Base machine address of the dictionary arena (`f->words`); any nonzero
    value returned by malloc models it. -/
def wordsBase : Int := 1048576

/-- The diagnostic printed by `key` and `word` when `fgetc` returns EOF at end
    of file (src/main.c:326-328, 378-380). -/
def eof_diag : List Nat := strBytes "[failure in getchar]\n[due to end of file]\n"

/-- The diagnostic printed by the REPL's compile branch for an unknown token
    (src/main.c:819). -/
def failed_to_find_msg (t : List Nat) : List Nat := strBytes "failed to find " ++ t ++ [10]

/-- Replace the unread bytes of the active input stream. -/
def setStream (f : forth_t) (l : List Nat) : forth_t :=
  { f with streams := fun h => if h = f.input_stream then l else f.streams h }

/-- `push` (src/main.c:96-97): `assert(stack_size(f) < f->stack_size);
    *f->top_stack = p; ++(f->top_stack);` -/
def push (v : Int) (f : forth_t) : M :=
  if f.stack.length < f.stack_size then .ok { f with stack := v :: f.stack }
  else .error (.assertFail, f)

/-- `pop` (src/main.c:95): `assert(stack_size(f) > 0); return *(--f->top_stack);` -/
def pop (f : forth_t) : Except (errkind × forth_t) (Int × forth_t) :=
  match f.stack with
  | [] => .error (.assertFail, f)
  | v :: s => .ok (v, { f with stack := s })

/-- `rpush` (src/main.c:91-92). -/
def rpush (v : Int) (f : forth_t) : M :=
  if f.rstack.length < f.rstack_size then .ok { f with rstack := v :: f.rstack }
  else .error (.assertFail, f)

/-- `rpop` (src/main.c:90). -/
def rpop (f : forth_t) : Except (errkind × forth_t) (Int × forth_t) :=
  match f.rstack with
  | [] => .error (.assertFail, f)
  | v :: r => .ok (v, { f with rstack := r })

/-- The padded name length computed identically in `colon` and the
    `push_*_word` helpers (src/main.c:474-476): the name plus its null
    terminator, padded so that the flag byte (1) plus the name lands on an
    8-byte boundary. -/
def paddedNameLen (name : List Nat) : Nat :=
  let l := name.length + 1
  if (l + 1) % 8 ≠ 0 then l + (8 - (l + 1) % 8) else l

/-- `codeword` (src/main.c:423-436): machine address of a record's codeword
    cell — skip the link pointer and flag byte (9 bytes) and the padded name. -/
def codeword_addr (w : word_t) : Int := w.addr + 9 + (paddedNameLen w.name : Int)

/-- `wordname` (src/main.c:443): address of a record's name bytes. -/
def wordname_addr (w : word_t) : Int := w.addr + 9

/-- `find_word` (src/main.c:761-772): walk the chain from `LATEST` through the
    link fields, returning the first record whose name compares equal
    (`strcmp == 0`), or NULL (`none`). -/
def find_word : List word_t → List Nat → Option word_t
  | [], _ => none
  | w :: rest, name => if w.name = name then some w else find_word rest name

/-- `is_immediate_word` (src/main.c:619-622): test bit 0 of the flag byte. -/
def is_immediate_word (w : word_t) : Bool := w.flags % 2 = 1

/-- `push_primitive_word` (src/main.c:534-553): append a primitive record at
    `HERE`, link it to the previous `LATEST`, and advance both cursors.
    `wordlen = 8 + 1 + namelen + 8` (link + flag + padded name + codeword). -/
def push_primitive_word (f : forth_t) (name : List Nat) (flags : Nat) (p : prim_t) : forth_t :=
  { f with
    dict := { flags := flags, name := name, code := p, body := [], addr := f.here } :: f.dict
    latest := f.here
    here := f.here + (8 + 1 + (paddedNameLen name : Int) + 8) }

/-- The repeated compile-time append `*(u64*)f->here = v; f->here += 8`
    (as in `comma`, `semicolon`, and the REPL's compile branch).  Under the
    engine's own discipline `HERE` always sits just past the most recent
    record, so the cell lands at the end of the `LATEST` record's body; with an
    empty dictionary the write would land in untracked memory. -/
def compile_cell (v : Int) (f : forth_t) : M :=
  match f.dict with
  | [] => .error (.ub, f)
  | w :: rest =>
    .ok { f with dict := { w with body := w.body ++ [v] } :: rest, here := f.here + 8 }

/-- The null-terminated string living at machine address `a`: the tokenizer's
    static buffer, or the name field of a dictionary record.  Reads of other
    addresses are outside the model (`none`). -/
def stringAt (f : forth_t) (a : Int) : Option (List Nat) :=
  if a = bufAddr then some f.buf
  else
    match f.dict.find? (fun w => a == wordname_addr w) with
    | some w => some w.name
    | none => none

/-- A cell load `*(u64*)a` as performed by `fetch`: the two engine cursor
    fields live at their distinguished addresses, everything else comes from
    `mem`. -/
def loadCell (f : forth_t) (a : Int) : Int :=
  if a = addrHere then f.here
  else if a = addrLatest then f.latest
  else f.mem a

/-- A cell store `*(u64*)a = v` as performed by `store`. -/
def storeCell (f : forth_t) (a v : Int) : forth_t :=
  if a = addrHere then { f with here := v }
  else if a = addrLatest then { f with latest := v }
  else { f with mem := fun x => if x = a then v else f.mem x }

/-- The trailing-comment drain loop in `word` (src/main.c:369-374):
    `while(true) { c = fgetc(...); if(c == '\n' || c == EOF) break; }` — it
    consumes through the next newline or EOF and leaves that final character
    in `c`, which the subsequent `n == 0 && c == EOF` test reads.  Returns the
    final `c` (`none` = EOF) and the unread rest of the stream. -/
def drainLine : List Nat → Option Nat × List Nat
  | [] => (none, [])
  | c :: rest => if c = 10 then (some 10, rest) else drainLine rest

/-- The combined whitespace- and comment-skipping loops at the start of `word`
    (src/main.c:344-357): skip whitespace; on `#` drain to end of line and
    resume skipping; stop at the first real character (returned together with
    the rest of the stream) or at EOF (`none`).  The Boolean records whether we
    are inside a `#` comment, replacing the C's nested loops with a single
    structural pass. -/
def nextNonBlankAux : Bool → List Nat → Option Nat × List Nat
  | _, [] => (none, [])
  | true, c :: rest =>
    if c = 10 then nextNonBlankAux false rest else nextNonBlankAux true rest
  | false, c :: rest =>
    if isspace c then nextNonBlankAux false rest
    else if c = 35 then nextNonBlankAux true rest
    else (some c, rest)

def nextNonBlank (l : List Nat) : Option Nat × List Nat := nextNonBlankAux false l

/-- The accumulation loop of `word` (src/main.c:359-364):
    `for(; n < 64; ++n) { buf[n] = c; c = fgetc(...); if(isspace(c) || c == EOF
    || c == '#') break; }`.  The fuel is `64 - n`; the result is
    (the bytes stored in `buf`, the final value of `n`, the final value of `c`
    (`none` = EOF), the unread rest of the stream). -/
def collectLoop : Nat → Nat → List Nat → List Nat × Nat × Option Nat × List Nat
  | 0, c, l => ([], 0, some c, l)
  | fuel + 1, c, l =>
    match l with
    | [] => ([c], 0, none, [])
    | d :: l' =>
      if isspace d || d = 35 then ([c], 0, some d, l')
      else
        match collectLoop fuel d l' with
        | (buf, n, cf, lf) => (c :: buf, n + 1, cf, lf)

/-- `word` (src/main.c:338-388), the tokenizer primitive.  The trailing
    comment drain runs first and overwrites `c` (with the newline or EOF), and
    only THEN does the exit test `if(n == 0 && c == EOF)` read `c`.  The test
    fires when EOF was hit before any real character (the `none` branch below
    — the for loop then stores the truncated EOF byte 0xFF once and exits with
    `n == 0`), when exactly one character was collected and EOF immediately
    followed, and also when a one-character token is followed by a `#` comment
    that reaches EOF without a newline.  In all of these the diagnostic is
    printed and nothing is pushed. -/
def word (f : forth_t) : M :=
  match nextNonBlank (f.streams f.input_stream) with
  | (none, l1) =>
    .ok { setStream f l1 with buf := [255], out := f.out ++ eof_diag }
  | (some c, l1) =>
    match collectLoop 64 c l1 with
    | (buf, n, c2, l2) =>
      match (if c2 = some 35 then drainLine l2 else (c2, l2)) with
      | (c3, l3) =>
        if n = 0 && c3 = none then
          .ok { setStream f l3 with buf := buf, out := f.out ++ eof_diag }
        else
          push bufAddr { setStream f l3 with buf := buf }

/-- `docol` (src/main.c:99-105): save `next` on the return stack (via `rpush`,
    with its capacity assert written out) and start walking the body one cell
    past the codeword. -/
def docol (f : forth_t) : M :=
  if f.rstack.length < f.rstack_size then
    .ok { f with rstack := f.next :: f.rstack, next := f.current + 8 }
  else .error (.assertFail, f)

/-- `doexit` (src/main.c:107): `f->next = rpop(f)`, with `rpop`'s underflow
    assert written out. -/
def doexit (f : forth_t) : M :=
  match f.rstack with
  | [] => .error (.assertFail, f)
  | v :: r => .ok { f with rstack := r, next := v }

/-- `lit` (src/main.c:109-113): `push(*f->next); f->next += 1` (one cell,
    i.e. 8 bytes), with `push`'s capacity assert written out. -/
def lit (f : forth_t) : M :=
  if f.stack.length < f.stack_size then
    .ok { f with stack := f.mem f.next :: f.stack, next := f.next + 8 }
  else .error (.assertFail, f)

/-- `branch` (src/main.c:115-119): read the inline `i64` offset, step past the
    offset cell, then add the offset.  `f->next += offset` on a `u64*` moves by
    whole cells, i.e. `8 * offset` bytes. -/
def branch (f : forth_t) : forth_t :=
  let offset := f.mem f.next
  let f1 := { f with next := f.next + 8 }
  { f1 with next := f1.next + 8 * offset }

/-- `zero_branch` (src/main.c:121-125): like `branch`, but the offset
    (read from `*next` before anything else) is added only when the popped
    cell is zero; the pop happens in either case. -/
def zero_branch (f : forth_t) : M :=
  match f.stack with
  | [] => .error (.assertFail, { f with next := f.next + 8 })
  | v :: s =>
    .ok (if v = 0 then
           { f with stack := s, next := (f.next + 8) + 8 * f.mem f.next }
         else { f with stack := s, next := f.next + 8 })

/-- `is_compiling` (src/main.c:127): push the numeric value of the state enum. -/
def is_compiling (f : forth_t) : M :=
  push (match f.state with | .NORMAL_STATE => 0 | .COMPILE_STATE => 1) f

/-- `set_immediate_mode` (src/main.c:129), the `[` primitive. -/
def set_immediate_mode (f : forth_t) : M := .ok { f with state := .NORMAL_STATE }

/-- `set_compile_mode` (src/main.c:130), the `]` primitive. -/
def set_compile_mode (f : forth_t) : M := .ok { f with state := .COMPILE_STATE }

/-- `doerror` (src/main.c:132): `exit(EXIT_FAILURE)`. -/
def doerror (f : forth_t) : M := .error (.exitFailure, f)

/-- `dorun_word` (src/main.c:134): `f->next = (u64*)pop(f)`. -/
def dorun_word (f : forth_t) : M :=
  match f.stack with
  | [] => .error (.assertFail, f)
  | v :: s => .ok { f with stack := s, next := v }

/-- `dostack_size` (src/main.c:136): push the current parameter-stack depth. -/
def dostack_size (f : forth_t) : M := push (f.stack.length : Int) f

/-- `doparse_number` (src/main.c:166-172): pop the string pointer, push a zero
    slot, let `parse_number` overwrite the slot through `top_stack - 1` on
    success, then push the Boolean result. -/
def doparse_number (f : forth_t) : M :=
  match f.stack with
  | [] => .error (.assertFail, f)
  | a :: s =>
    match stringAt { f with stack := s } a with
    | none => .error (.ub, { f with stack := s })
    | some t =>
      match push 0 { f with stack := s } with
      | .error e => .error e
      | .ok f1 =>
        match parse_number t with
        | some n => push 1 { f1 with stack := n :: f1.stack.tail }
        | none => push 0 f1

/-- `add` (src/main.c:176-184): `i64` addition of the top two cells, with the
    result replacing them (computed before the pop, as in C). -/
def add (f : forth_t) : M :=
  match f.stack with
  | b :: a :: s => .ok { f with stack := wrap64 (a + b) :: s }
  | _ => .error (.assertFail, f)

/-- `mult` (src/main.c:186-194). -/
def mult (f : forth_t) : M :=
  match f.stack with
  | b :: a :: s => .ok { f with stack := wrap64 (a * b) :: s }
  | _ => .error (.assertFail, f)

/-- `sub` (src/main.c:196-204). -/
def sub (f : forth_t) : M :=
  match f.stack with
  | b :: a :: s => .ok { f with stack := wrap64 (a - b) :: s }
  | _ => .error (.assertFail, f)

/-- `divmod` (src/main.c:206-214): after the depth assert, compute `a / b` and
    `a % b` (C truncated division) in place, with NO check on the divisor.
    A zero divisor — or the one overflowing case `INT64_MIN / -1` — traps on
    real hardware and is undefined behaviour in C, modelled as `ub`. -/
def divmod (f : forth_t) : M :=
  match f.stack with
  | b :: a :: s =>
    if b = 0 then .error (.ub, f)
    else if a = -9223372036854775808 ∧ b = -1 then .error (.ub, f)
    else .ok { f with stack := Int.tmod a b :: Int.tdiv a b :: s }
  | _ => .error (.assertFail, f)

/-- `eq` (src/main.c:216-224): C Boolean results are the cells 1 and 0. -/
def eq (f : forth_t) : M :=
  match f.stack with
  | b :: a :: s => .ok { f with stack := (if a = b then 1 else 0) :: s }
  | _ => .error (.assertFail, f)

/-- `lt` (src/main.c:226-234), signed comparison. -/
def lt (f : forth_t) : M :=
  match f.stack with
  | b :: a :: s => .ok { f with stack := (if a < b then 1 else 0) :: s }
  | _ => .error (.assertFail, f)

/-- `gt` (src/main.c:236-244). -/
def gt (f : forth_t) : M :=
  match f.stack with
  | b :: a :: s => .ok { f with stack := (if a > b then 1 else 0) :: s }
  | _ => .error (.assertFail, f)

/-- `leq` (src/main.c:246-254). -/
def leq (f : forth_t) : M :=
  match f.stack with
  | b :: a :: s => .ok { f with stack := (if a ≤ b then 1 else 0) :: s }
  | _ => .error (.assertFail, f)

/-- `geq` (src/main.c:256-264). -/
def geq (f : forth_t) : M :=
  match f.stack with
  | b :: a :: s => .ok { f with stack := (if a ≥ b then 1 else 0) :: s }
  | _ => .error (.assertFail, f)

/-- `donot` (src/main.c:268): `push(!pop(f))`. -/
def donot (f : forth_t) : M :=
  match f.stack with
  | [] => .error (.assertFail, f)
  | v :: s => push (if v = 0 then 1 else 0) { f with stack := s }

/-- `doand` (src/main.c:269-277): C logical `&&` on the top two cells. -/
def doand (f : forth_t) : M :=
  match f.stack with
  | b :: a :: s => .ok { f with stack := (if a ≠ 0 ∧ b ≠ 0 then 1 else 0) :: s }
  | _ => .error (.assertFail, f)

/-- `door` (src/main.c:279-287): C logical `||`. -/
def door (f : forth_t) : M :=
  match f.stack with
  | b :: a :: s => .ok { f with stack := (if a ≠ 0 ∨ b ≠ 0 then 1 else 0) :: s }
  | _ => .error (.assertFail, f)

/-- `drop` (src/main.c:291). -/
def drop (f : forth_t) : M :=
  match f.stack with
  | [] => .error (.assertFail, f)
  | _ :: s => .ok { f with stack := s }

/-- `swap` (src/main.c:293-300): two pops followed by two pushes (which cannot
    overflow, the depth having just decreased by two). -/
def swap (f : forth_t) : M :=
  match f.stack with
  | a :: b :: s => .ok { f with stack := b :: a :: s }
  | _ => .error (.assertFail, f)

/-- `dup` (src/main.c:302-309): NOTE the C body — after the `>= 1` depth
    assert it writes `*f->top_stack = x; ++f->top_stack;` directly, WITHOUT
    the capacity check that `push` performs.  The model therefore grows the
    stack unconditionally, exactly as the C does. -/
def dup (f : forth_t) : M :=
  match f.stack with
  | [] => .error (.assertFail, f)
  | x :: s => .ok { f with stack := x :: x :: s }

/-- `over` (src/main.c:311-316): pushes a copy of the second cell via `push`
    (so with its capacity assert). -/
def over (f : forth_t) : M :=
  match f.stack with
  | _ :: b :: _ => push b f
  | _ => .error (.assertFail, f)

/-- `key` (src/main.c:321-336): read one byte from the active stream; on EOF
    print the diagnostic and return without pushing; otherwise push the byte
    (`push`'s capacity assert written out; the byte is consumed either way). -/
def key (f : forth_t) : M :=
  match f.streams f.input_stream with
  | [] => .ok { f with out := f.out ++ eof_diag }
  | c :: rest =>
    if f.stack.length < f.stack_size then
      .ok { setStream f rest with stack := (c : Int) :: f.stack }
    else .error (.assertFail, setStream f rest)

/-- `emit` (src/main.c:390-397): assert depth and that the cell, read as
    `u64`, is below 256 (so in the window encoding: nonnegative and < 256);
    pop and write the byte. -/
def emit (f : forth_t) : M :=
  match f.stack with
  | [] => .error (.assertFail, f)
  | v :: s =>
    if 0 ≤ v ∧ v < 256 then .ok { f with stack := s, out := f.out ++ [v.toNat] }
    else .error (.assertFail, f)

/-- `tell` (src/main.c:399): pop a pointer and print the null-terminated
    string there. -/
def tell (f : forth_t) : M :=
  match f.stack with
  | [] => .error (.assertFail, f)
  | a :: s =>
    match stringAt { f with stack := s } a with
    | none => .error (.ub, { f with stack := s })
    | some t => .ok { f with stack := s, out := f.out ++ t }

/-- `dofind_word` (src/main.c:401-404): pop a string pointer, push the address
    of the matching record or NULL (0). -/
def dofind_word (f : forth_t) : M :=
  match f.stack with
  | [] => .error (.assertFail, f)
  | a :: s =>
    match stringAt { f with stack := s } a with
    | none => .error (.ub, { f with stack := s })
    | some t =>
      match find_word f.dict t with
      | some w => push w.addr { f with stack := s }
      | none => push 0 { f with stack := s }

/-- `dostdin` (src/main.c:406): push the `FILE*` value of stdin. -/
def dostdin (f : forth_t) : M := push stdinHandle f

/-- `set_input_stream` (src/main.c:408). -/
def set_input_stream (f : forth_t) : M :=
  match f.stack with
  | [] => .error (.assertFail, f)
  | a :: s => .ok { f with stack := s, input_stream := a }

/-- `get_input_stream` (src/main.c:409). -/
def get_input_stream (f : forth_t) : M := push f.input_stream f

/-- `open_read_file` (src/main.c:411-415): pop a path string and push the
    `FILE*` returned by `fopen` (NULL = 0). -/
def open_read_file (f : forth_t) : M :=
  match f.stack with
  | [] => .error (.assertFail, f)
  | a :: s =>
    match stringAt { f with stack := s } a with
    | none => .error (.ub, { f with stack := s })
    | some path =>
      push (match f.fopen_result path with | some h => h | none => 0) { f with stack := s }

/-- `close_file` (src/main.c:417-421): pop and `fclose` the handle (no
    observable engine effect in the model). -/
def close_file (f : forth_t) : M :=
  match f.stack with
  | [] => .error (.assertFail, f)
  | _ :: s => .ok { f with stack := s }

/-- `docodeword` (src/main.c:438-441): pop a record address and push the
    address of its codeword cell.  On an address that is not a tracked record
    the C would read arbitrary bytes: outside the model. -/
def docodeword (f : forth_t) : M :=
  match f.stack with
  | [] => .error (.assertFail, f)
  | a :: s =>
    match f.dict.find? (fun w => a == w.addr) with
    | some w => push (codeword_addr w) { f with stack := s }
    | none => .error (.ub, { f with stack := s })

/-- `semicolon` (src/main.c:446-454), the `;` primitive: assert COMPILE state,
    switch to NORMAL, and append the codeword address of `exit` at `HERE`. -/
def semicolon (f : forth_t) : M :=
  match f.state with
  | .NORMAL_STATE => .error (.assertFail, f)
  | .COMPILE_STATE =>
    match find_word f.dict (strBytes "exit") with
    | none => .error (.ub, f)
    | some e => compile_cell (codeword_addr e) { f with state := .NORMAL_STATE }

/-- `here` (src/main.c:456): `push(cast(u64, &f->here))` — the ADDRESS of the
    cursor field, not its value. -/
def here (f : forth_t) : M := push addrHere f

/-- `latest` (src/main.c:457): `push(cast(u64, &f->latest))`. -/
def latest (f : forth_t) : M := push addrLatest f

/-- `fetch` (src/main.c:459), the `@` primitive. -/
def fetch (f : forth_t) : M :=
  match f.stack with
  | [] => .error (.assertFail, f)
  | a :: s => push (loadCell { f with stack := s } a) { f with stack := s }

/-- `store` (src/main.c:460-465), the `!` primitive: pop the address, then the
    value, and write the cell. -/
def store (f : forth_t) : M :=
  match f.stack with
  | a :: v :: s => .ok (storeCell { f with stack := s } a v)
  | _ => .error (.assertFail, f)

/-- `colon` (src/main.c:468-494), the `:` primitive: run `word` to read the
    name, pop it, THEN assert NORMAL state, switch to COMPILE, append a record
    whose codeword is `docol` (and no body yet), update `LATEST`, and advance
    `HERE` by `wordlen = 8 + 1 + 8 + namelen`.  (The flag byte ends up zero:
    the arena is zero-initialised and `HERE` never moves backwards.) -/
def colon (f : forth_t) : M :=
  match word f with
  | .error e => .error e
  | .ok f1 =>
    match pop f1 with
    | .error e => .error e
    | .ok (a, f2) =>
      match stringAt f2 a with
      | none => .error (.ub, f2)
      | some name =>
        match f2.state with
        | .COMPILE_STATE => .error (.assertFail, f2)
        | .NORMAL_STATE =>
          .ok { f2 with
                state := .COMPILE_STATE
                dict := { flags := 0, name := name, code := .docol, body := [],
                          addr := f2.here } :: f2.dict
                latest := f2.here
                here := f2.here + (8 + 1 + 8 + (paddedNameLen name : Int)) }

/-- `comma` (src/main.c:496-500), the `,` primitive: pop a cell and append it
    at `HERE`. -/
def comma (f : forth_t) : M :=
  match f.stack with
  | [] => .error (.assertFail, f)
  | v :: s => compile_cell v { f with stack := s }

/-- `tick` (src/main.c:502-506), the `'` primitive: `push(*f->next);
    f->next += 1` — identical in shape to `lit`. -/
def tick (f : forth_t) : M :=
  if f.stack.length < f.stack_size then
    .ok { f with stack := f.mem f.next :: f.stack, next := f.next + 8 }
  else .error (.assertFail, f)

/-- `immediate` (src/main.c:624-628): assert a word exists and set bit 0 of
    `LATEST`'s flag byte. -/
def immediate (f : forth_t) : M :=
  match f.dict with
  | [] => .error (.assertFail, f)
  | w :: rest => .ok { f with dict := { w with flags := w.flags ||| 1 } :: rest }

/-- Rendering of `printstack` (src/main.c:508-518): the cells bottom-to-top,
    `%ld`-formatted, separated by single spaces. -/
def printstack_render (s : List Int) : List Nat :=
  strBytes "stack: " ++ List.intercalate [32] (s.reverse.map format) ++ [10]

/-- `printstack` (src/main.c:508-518), the `.s` primitive. -/
def printstack (f : forth_t) : M :=
  .ok { f with out := f.out ++ printstack_render f.stack }

/-- `printwords` (src/main.c:520-532), the `.w` primitive: the word names most
    recent first, each followed by a space. -/
def printwords (f : forth_t) : M :=
  .ok { f with out := f.out ++ strBytes "words: "
                      ++ (f.dict.map (fun w => w.name ++ [32])).flatten ++ [10] }

/-- One hexadecimal digit as an ASCII byte. -/
def hex_digit (n : Nat) : Nat := if n < 10 then 48 + n else 87 + n

/-- `%p` rendering of a machine address. -/
def fmt_ptr (a : Int) : List Nat :=
  strBytes "0x" ++ (if a.toNat = 0 then [48]
                    else ((Nat.digits 16 a.toNat).reverse).map hex_digit)

/-- The per-record output of `dumpwords` (src/main.c:630-661): header line,
    then for colon words the body cells up to (excluding) the codeword address
    of `exit`. -/
def dump_word_render (exitcw : Int) (w : word_t) : List Nat :=
  strBytes "found" ++ (if is_immediate_word w then strBytes " immediate" else [])
  ++ strBytes " word " ++ w.name ++ strBytes " at " ++ fmt_ptr w.addr
  ++ strBytes " (cw at " ++ fmt_ptr (codeword_addr w) ++ strBytes ")\n"
  ++ (if w.code = .docol ∧ w.name ≠ strBytes "docol" then
        strBytes "forth word, consisting of: \n"
        ++ ((w.body.takeWhile (fun v => v ≠ exitcw)).map
              (fun v => [32, 32] ++ fmt_ptr v ++ [10])).flatten
      else strBytes "primitive word\n")
  ++ [10]

/-- `dumpwords` (src/main.c:630-661), the `.d` primitive.  A colon body that
    does not contain the `exit` codeword would make the C loop read past the
    record: outside the model. -/
def dumpwords (f : forth_t) : M :=
  match find_word f.dict (strBytes "exit") with
  | none => .error (.ub, f)
  | some e =>
    let exitcw := codeword_addr e
    if f.dict.all (fun w =>
         !(w.code = prim_t.docol && w.name ≠ strBytes "docol") || exitcw ∈ w.body) then
      .ok { f with out := f.out ++ (f.dict.map (dump_word_render exitcw)).flatten }
    else .error (.ub, f)

/-- The token classification of one REPL iteration (src/main.c:788-833),
    applied to the engine state after the token has been popped.  `exec` is
    the behaviour of `run_word` on a found record (the claims below hold for
    every such behaviour); `litw` is the record for `lit` that the REPL looked
    up once at entry (src/main.c:777). -/
def repl_classify (exec : word_t → forth_t → M) (litw : word_t)
    (t : List Nat) (f : forth_t) : M :=
  match f.state with
  | .NORMAL_STATE =>
    match parse_number t with
    | some num => push num f
    | none =>
      match find_word f.dict t with
      | some w => exec w f
      | none => .error (.assertFail, f)          -- assert(next): no message printed
  | .COMPILE_STATE =>
    match parse_number t with
    | some num =>                                -- append codeword(lit), then the literal
      match compile_cell (codeword_addr litw) f with
      | .error e => .error e
      | .ok f1 => compile_cell num f1
    | none =>
      match find_word f.dict t with
      | none =>                                  -- printf("failed to find %s\n"); assert(next)
        .error (.assertFail, { f with out := f.out ++ failed_to_find_msg t })
      | some w =>
        if is_immediate_word w then exec w f
        else compile_cell (codeword_addr w) f

/-- One iteration of the REPL loop (src/main.c:783-834): run `word`,
    unconditionally pop the token pointer, read the token string, classify. -/
def repl_step (exec : word_t → forth_t → M) (litw : word_t) (f : forth_t) : M :=
  match word f with
  | .error e => .error e
  | .ok f1 =>
    match pop f1 with
    | .error e => .error e
    | .ok (a, f2) =>
      match stringAt f2 a with
      | none => .error (.ub, f2)
      | some t => repl_classify exec litw t f2

/-- REPL entry (src/main.c:779-781): `f->input_stream = fopen("startup.f",
    "r"); assert(f->input_stream);` — the handle is installed BEFORE the
    assert, and a NULL result aborts; there is no code path that falls back to
    stdin. -/
def replEntry (f : forth_t) : M :=
  let h := match f.fopen_result (strBytes "startup.f") with | some h => h | none => 0
  let f1 := { f with input_stream := h }
  if h = 0 then .error (.assertFail, f1) else .ok f1

/-- Observable projection: the kind of abnormal termination, if any. -/
def errKindOf : M → Option errkind
  | .ok _ => none
  | .error e => some e.1

/-- Observable projection: everything on standard output at the point of
    abnormal termination. -/
def errOutOf : M → Option (List Nat)
  | .ok _ => none
  | .error e => some e.2.out

/-- Observable projection: the parameter-stack depth after a successful step. -/
def okStackLenOf : M → Option Nat
  | .ok f => some f.stack.length
  | .error _ => none

/-- Observable projection: the active stream handle after a successful step. -/
def okStreamOf : M → Option Int
  | .ok f => some f.input_stream
  | .error _ => none

/-- A minimal concrete engine: the field values `new_forth` assigns, but with
    an empty dictionary, an exhausted stdin, an environment in which `fopen`
    always fails, and definite values (NORMAL, 0, 0) chosen for the three
    fields that `new_forth` leaves indeterminate.  Used as the base of the
    concrete states below. -/
def f_base : forth_t :=
  { stack := [], rstack := [], word_size := 65536, stack_size := 16384,
    rstack_size := 256, here := wordsBase, latest := 0, dict := [],
    input_stream := stdinHandle, streams := fun _ => [], fopen_result := fun _ => none,
    state := .NORMAL_STATE, next := 0, current := 0, mem := fun _ => 0,
    out := [], buf := [] }

/-- A trivial `run_word` behaviour for instantiating the REPL theorems. -/
def exec0 : word_t → forth_t → M := fun _ f => .ok f

/-- A concrete `lit` record for instantiating the REPL theorems. -/
def litw0 : word_t :=
  { flags := 0, name := strBytes "lit", code := .lit, body := [], addr := wordsBase }

/-- Concrete state for C2: NORMAL state, stdin holds the unknown token
    "qq" followed by a space, dictionary empty. -/
def f_c2 : forth_t := { f_base with streams := fun _ => [113, 113, 32] }

/-- The same state in COMPILE state, with a one-record dictionary so the
    compile-branch append is well-defined. -/
def f_c2c : forth_t :=
  { f_c2 with state := .COMPILE_STATE, dict := [litw0] }

/-- Concrete state for C8's missing `dup` overflow check: a parameter stack
    filled exactly to capacity. -/
def f_full : forth_t := { f_base with stack := List.replicate 16384 0 }

/-- Concrete state for C6: `next` points at an offset cell holding 3. -/
def f_br : forth_t :=
  { f_base with next := 100, mem := fun a => if a = 100 then 3 else 0, stack := [0] }

/-! ### Arithmetic facts about the two's-complement window -/

theorem wrap64_eq_self {n : Int} (h1 : -9223372036854775808 ≤ n)
    (h2 : n < 9223372036854775808) : wrap64 n = n := by
  unfold wrap64
  omega

theorem wrap64_tenmul (a d : Int) : wrap64 (10 * wrap64 a + d) = wrap64 (10 * a + d) := by
  unfold wrap64
  omega

theorem wrap64_zero : wrap64 0 = 0 := by
  unfold wrap64
  omega

/-! ### The digit-accumulation loop -/

theorem parse_digits_map (L : List Nat) (h : ∀ d ∈ L, d < 10) (a : Int) :
    parse_digits (L.map (fun d => d + 48)) a = some (List.foldl wstep a L) := by
  induction L generalizing a with
  | nil => rfl
  | cons d L ih =>
    have hd : d < 10 := h d (by simp)
    have hdig : isdigit (d + 48) = true := by
      simp only [isdigit, Bool.and_eq_true, decide_eq_true_eq]
      omega
    have hcast : ((d + 48 : Nat) : Int) - 48 = (d : Int) := by
      push_cast
      ring
    simp only [List.map_cons, parse_digits, hdig, if_true, List.foldl_cons, hcast, wstep]
    exact ih (fun x hx => h x (by simp [hx])) _

theorem foldl_wrap_pure (L : List Nat) (a : Int) :
    List.foldl wstep (wrap64 a) L = wrap64 (List.foldl pstep a L) := by
  induction L generalizing a with
  | nil => rfl
  | cons d L ih =>
    simp only [List.foldl_cons, wstep, pstep]
    rw [wrap64_tenmul]
    exact ih _

theorem foldl_reverse_ofDigits (L : List Nat) (a : Int) :
    List.foldl pstep a L.reverse
      = a * 10 ^ L.length + ((Nat.ofDigits 10 L : Nat) : Int) := by
  induction L generalizing a with
  | nil => simp [Nat.ofDigits]
  | cons d L ih =>
    rw [List.reverse_cons, List.foldl_append, ih]
    simp only [List.foldl_cons, List.foldl_nil, Nat.ofDigits_cons, List.length_cons, pstep]
    push_cast
    ring

theorem parse_digits_format (m : Nat) :
    parse_digits (format_nat m) 0 = some (wrap64 m) := by
  by_cases hm : m = 0
  · subst hm
    decide
  · have hlt : ∀ d ∈ (Nat.digits 10 m).reverse, d < 10 := by
      intro d hd
      exact Nat.digits_lt_base (by norm_num) (List.mem_reverse.mp hd)
    rw [format_nat, if_neg hm, parse_digits_map _ hlt 0]
    have h0 : (0 : Int) = wrap64 0 := wrap64_zero.symm
    rw [h0, foldl_wrap_pure, foldl_reverse_ofDigits, Nat.ofDigits_digits]
    norm_num

theorem format_nat_mem {m c : Nat} (hc : c ∈ format_nat m) : 48 ≤ c ∧ c ≤ 57 := by
  unfold format_nat at hc
  by_cases hm : m = 0
  · rw [if_pos hm] at hc
    simp at hc
    omega
  · rw [if_neg hm] at hc
    simp at hc
    obtain ⟨d, hd, rfl⟩ := hc
    have := Nat.digits_lt_base (b := 10) (by norm_num) hd
    omega

theorem format_nat_ne_nil (m : Nat) : format_nat m ≠ [] := by
  unfold format_nat
  by_cases hm : m = 0
  · rw [if_pos hm]
    simp
  · rw [if_neg hm]
    simp [Nat.digits_ne_nil_iff_ne_zero.mpr hm]

theorem parse_number_format_nonneg {n : Int} (h0 : 0 ≤ n)
    (h2 : n < 9223372036854775808) : parse_number (format n) = some n := by
  have hfmt : format n = format_nat n.toNat := by
    rw [format, if_neg (by omega)]
  rcases hcons : format_nat n.toNat with _ | ⟨c, rest⟩
  · exact absurd hcons (format_nat_ne_nil _)
  · have hc45 : c ≠ 45 := by
      have := format_nat_mem (m := n.toNat) (c := c) (by rw [hcons]; simp)
      omega
    have hpd : parse_digits (c :: rest) 0 = some (wrap64 n.toNat) := by
      rw [← hcons]
      exact parse_digits_format _
    rw [hfmt, hcons]
    simp only [parse_number, if_neg hc45, hpd]
    have : ((n.toNat : Nat) : Int) = n := Int.toNat_of_nonneg h0
    rw [this, wrap64_eq_self (by omega) h2]

theorem parse_number_format_neg {n : Int} (hneg : n < 0)
    (h1 : -9223372036854775808 ≤ n) : parse_number (format n) = some n := by
  obtain ⟨m, hmval⟩ : ∃ m : Nat, (m : Int) = -n :=
    ⟨(-n).toNat, Int.toNat_of_nonneg (by omega)⟩
  have hfmt : format n = 45 :: format_nat m := by
    rw [format, if_pos hneg]
    congr 2
    omega
  rcases hcons : format_nat m with _ | ⟨c, rest⟩
  · exact absurd hcons (format_nat_ne_nil _)
  · have hpd : parse_digits (c :: rest) 0 = some (wrap64 m) := by
      rw [← hcons]
      exact parse_digits_format _
    rw [hfmt, hcons]
    simp only [parse_number, hpd]
    have hmle : (m : Int) ≤ 9223372036854775808 := by omega
    rcases lt_or_eq_of_le hmle with hlt | heq
    · have hn : n = -(m : Int) := by omega
      rw [wrap64_eq_self (by omega) hlt, wrap64_eq_self (by omega) (by omega), hn]
      simp
    · have hn : n = -9223372036854775808 := by omega
      rw [heq, show wrap64 9223372036854775808 = -9223372036854775808 by decide,
          show wrap64 (- -9223372036854775808 : Int) = -9223372036854775808 by decide, hn]
      simp

theorem parse_digits_none {L : List Nat} {c : Nat} (hc : c ∈ L)
    (hd : isdigit c = false) : ∀ a, parse_digits L a = none := by
  induction L with
  | nil => cases hc
  | cons x L ih =>
    intro a
    rcases List.mem_cons.mp hc with rfl | hmem
    · simp [parse_digits, hd]
    · by_cases hx : isdigit x
      · simp [parse_digits, hx, ih hmem]
      · simp [parse_digits, hx]

theorem parse_number_nondigit (s : List Nat) (c : Nat) (hc : c ∈ stripMinus s)
    (hd : isdigit c = false) : parse_number s = none := by
  cases s with
  | nil => rfl
  | cons h t =>
    by_cases h45 : h = 45
    · subst h45
      have hct : c ∈ t := by simpa [stripMinus] using hc
      cases t with
      | nil => cases hct
      | cons x t' => simp [parse_number, parse_digits_none hct hd]
    · have hcs : c ∈ h :: t := by simpa [stripMinus, h45] using hc
      simp [parse_number, h45, parse_digits_none hcs hd]

/-- C5: for every 64-bit signed integer `n`, `parse_number` applied to the
    base-10 rendering of `n` succeeds with value `n` (including the wrapping
    edge case `n = -2^63`); and it fails on the empty string, on "-" alone,
    and on every string containing a non-digit after the optional leading
    minus sign. -/
theorem C5_parse_number_spec :
    (∀ n : Int, -9223372036854775808 ≤ n → n < 9223372036854775808 →
        parse_number (format n) = some n)
    ∧ parse_number [] = none
    ∧ parse_number [45] = none
    ∧ (∀ s c, c ∈ stripMinus s → isdigit c = false → parse_number s = none) := by
  refine ⟨fun n h1 h2 => ?_, rfl, rfl, parse_number_nondigit⟩
  by_cases hneg : n < 0
  · exact parse_number_format_neg hneg h1
  · exact parse_number_format_nonneg (by omega) h2

/-- Witness for C5 at concrete inputs: round-trip at -7 and failure on the
    non-digit string "-a". -/
theorem C5_parse_number_spec_witness :
    parse_number (format (-7)) = some (-7) ∧ parse_number [45, 97] = none :=
  ⟨C5_parse_number_spec.1 (-7) (by norm_num) (by norm_num),
   C5_parse_number_spec.2.2.2 [45, 97] 97 (by decide) (by decide)⟩

/-- C6: `branch` reads the inline signed offset at `next`, steps past the
    offset cell (8 bytes), and unconditionally adds the offset counted in
    cells (8 bytes each) from the cell after the offset; `0branch` does the
    same after popping the condition, adding the offset only when the popped
    cell is 0 and leaving `next` just past the offset cell otherwise (the pop
    happens in both cases, and underflows on an empty stack). -/
theorem C6_branch_semantics :
    ∀ f : forth_t,
      branch f = { f with next := (f.next + 8) + 8 * f.mem f.next }
      ∧ (∀ v s, f.stack = v :: s →
          zero_branch f =
            .ok (if v = 0 then
                   { f with stack := s, next := (f.next + 8) + 8 * f.mem f.next }
                 else { f with stack := s, next := f.next + 8 }))
      ∧ (f.stack = [] →
          zero_branch f = .error (.assertFail, { f with next := f.next + 8 })) := by
  intro f
  refine ⟨rfl, fun v s h => ?_, fun h => ?_⟩
  · by_cases hv : v = 0 <;> simp [zero_branch, h, hv]
  · simp [zero_branch, h]

/-- Witness for C6 at a concrete state: offset 3 at `next = 100` and a zero on
    the stack takes `next` to 100 + 8 + 24 = 132. -/
theorem C6_branch_semantics_witness :
    zero_branch f_br = .ok { f_br with stack := [], next := 132 } := by
  have h := (C6_branch_semantics f_br).2.1 0 [] rfl
  simpa [f_br, f_base] using h

/-- C9: `here` and `latest` push the machine ADDRESS of the respective cursor
    field — a constant independent of the cursor's value — so that a following
    `@` reads the cursor's current value and a following `!` overwrites it. -/
theorem C9_cursor_addresses :
    ∀ f : forth_t, f.stack.length < f.stack_size →
      here f = .ok { f with stack := addrHere :: f.stack }
      ∧ latest f = .ok { f with stack := addrLatest :: f.stack }
      ∧ fetch { f with stack := addrHere :: f.stack }
          = .ok { f with stack := f.here :: f.stack }
      ∧ fetch { f with stack := addrLatest :: f.stack }
          = .ok { f with stack := f.latest :: f.stack }
      ∧ (∀ v s, f.stack = v :: s →
          store { f with stack := addrHere :: f.stack }
            = .ok { f with stack := s, here := v }
          ∧ store { f with stack := addrLatest :: f.stack }
            = .ok { f with stack := s, latest := v }) := by
  intro f h
  refine ⟨by simp [here, push, h], by simp [latest, push, h], ?_, ?_, fun v s hs => ⟨?_, ?_⟩⟩
  · simp [fetch, loadCell, push, h]
  · simp [fetch, loadCell, push, h, addrLatest, addrHere]
  · simp [store, hs, storeCell]
  · simp [store, hs, storeCell, addrLatest, addrHere]

/-- Witness for C9 at a concrete state with stack `[7]`. -/
theorem C9_cursor_addresses_witness :
    store { { f_base with stack := [7] } with
            stack := addrHere :: ({ f_base with stack := [7] } : forth_t).stack }
      = .ok { { f_base with stack := [7] } with stack := [], here := 7 } :=
  ((C9_cursor_addresses { f_base with stack := [7] } (by simp [f_base])).2.2.2.2
    7 [] rfl).1

/-- C10: `divmod` asserts that at least two cells are on the parameter stack
    but performs `a / b` and `a % b` with no check on the divisor: with
    divisor 0 (or in the lone overflow case `INT64_MIN / -1`) the division is
    unguarded — it traps on real hardware and is undefined behaviour in C,
    modelled as `ub`; for any other divisor it replaces the operands with the
    truncated-toward-zero quotient and remainder in place. -/
theorem C10_divmod_unguarded :
    ∀ f : forth_t,
      (f.stack.length < 2 → divmod f = .error (.assertFail, f))
      ∧ (∀ a s, f.stack = 0 :: a :: s → divmod f = .error (.ub, f))
      ∧ (∀ b a s, f.stack = b :: a :: s → b ≠ 0 →
          ¬(a = -9223372036854775808 ∧ b = -1) →
          divmod f = .ok { f with stack := Int.tmod a b :: Int.tdiv a b :: s }) := by
  intro f
  refine ⟨fun h => ?_, fun a s h => ?_, fun b a s h hb hov => ?_⟩
  · match hs : f.stack with
    | [] => simp [divmod, hs]
    | [x] => simp [divmod, hs]
    | x :: y :: s =>
      rw [hs] at h
      simp only [List.length_cons] at h
      omega
  · simp [divmod, h]
  · simp [divmod, h, hb, hov]

/-- Witness for C10: `7 3 divmod` leaves quotient 2 and remainder 1. -/
theorem C10_divmod_unguarded_witness :
    divmod { f_base with stack := [3, 7] }
      = .ok { { f_base with stack := [3, 7] } with stack := [1, 2] } := by
  have h := (C10_divmod_unguarded { f_base with stack := [3, 7] }).2.2
    3 7 [] rfl (by norm_num) (by norm_num)
  simpa using h

/-- C8 (amended): `pop`/`rpop` detect underflow and `push`/`rpush` detect
    overflow; `dup` detects underflow on an empty stack; `push` preserves the
    depth invariant — but `dup` appends its duplicate WITHOUT a capacity
    check, so a `dup` on a full stack exceeds the capacity undetected (see the
    counterexample). -/
theorem C8_stack_bounds :
    ∀ f : forth_t,
      (f.stack = [] → pop f = .error (.assertFail, f))
      ∧ (f.rstack = [] → rpop f = .error (.assertFail, f))
      ∧ (∀ v, ¬f.stack.length < f.stack_size → push v f = .error (.assertFail, f))
      ∧ (∀ v, ¬f.rstack.length < f.rstack_size → rpush v f = .error (.assertFail, f))
      ∧ (f.stack = [] → dup f = .error (.assertFail, f))
      ∧ (∀ v f', push v f = .ok f' →
          f'.stack.length = f.stack.length + 1 ∧ f'.stack.length ≤ f.stack_size)
      ∧ (∀ v s, f.stack = v :: s → pop f = .ok (v, { f with stack := s }))
      ∧ (∀ x s, f.stack = x :: s → dup f = .ok { f with stack := x :: x :: s }) := by
  intro f
  refine ⟨fun h => by simp [pop, h], fun h => by simp [rpop, h],
          fun v h => by simp [push, h], fun v h => by simp [rpush, h],
          fun h => by simp [dup, h], fun v f' h => ?_,
          fun v s h => by simp [pop, h], fun x s h => by simp [dup, h]⟩
  · unfold push at h
    split at h
    · rename_i hlt
      cases h
      simp
      omega
    · cases h

/-- Witness for C8 at concrete states: `pop` underflows on the fresh engine
    and `dup` duplicates a one-cell stack. -/
theorem C8_stack_bounds_witness :
    pop f_base = .error (.assertFail, f_base)
    ∧ dup { f_base with stack := [5] }
        = .ok { { f_base with stack := [5] } with stack := [5, 5] } :=
  ⟨(C8_stack_bounds f_base).1 rfl,
   (C8_stack_bounds { f_base with stack := [5] }).2.2.2.2.2.2.2 5 [] rfl⟩

/-- Counterexample for C8 as stated: `dup` on a stack already at its capacity
    of 16384 cells succeeds (no detected overflow) and leaves depth 16385. -/
theorem C8_dup_overflow_cex :
    okStackLenOf (dup f_full) = some 16385
    ∧ f_full.stack.length = f_full.stack_size
    ∧ f_full.stack_size = 16384 := by
  have hst : f_full.stack = 0 :: List.replicate 16383 0 := rfl
  have hdup : dup f_full = .ok { f_full with stack := 0 :: 0 :: List.replicate 16383 0 } := by
    unfold dup
    rw [hst]
  refine ⟨?_, ?_, rfl⟩
  · rw [hdup]
    simp only [okStackLenOf, List.length_cons, List.length_replicate]
  · rw [hst]
    simp only [List.length_cons, List.length_replicate]
    rfl

/-- C3 (amended): REPL entry installs the result of `fopen("startup.f", "r")`
    as the input stream and then asserts it is non-NULL: when the open fails
    the engine aborts on the failed assertion — there is no fallback to
    standard input. -/
theorem C3_startup_open :
    ∀ f : forth_t,
      (f.fopen_result (strBytes "startup.f") = none →
        replEntry f = .error (.assertFail, { f with input_stream := 0 }))
      ∧ (∀ h, f.fopen_result (strBytes "startup.f") = some h → h ≠ 0 →
          replEntry f = .ok { f with input_stream := h }) := by
  intro f
  constructor
  · intro h
    simp [replEntry, h]
  · intro h hopen hne
    simp [replEntry, hopen, hne]

/-- Witness for C3: with an environment whose `fopen` yields handle 5,
    entry succeeds with stream 5. -/
theorem C3_startup_open_witness :
    replEntry { f_base with fopen_result := fun _ => some 5 }
      = .ok { { f_base with fopen_result := fun _ => some 5 } with input_stream := 5 } :=
  (C3_startup_open { f_base with fopen_result := fun _ => some 5 }).2
    5 rfl (by norm_num)

/-- Counterexample for C3 as stated: in an environment where the open fails,
    REPL entry aborts (failed assertion) instead of falling back to stdin —
    no success state with the stdin stream results. -/
theorem C3_startup_fallback_cex :
    errKindOf (replEntry f_base) = some .assertFail
    ∧ okStreamOf (replEntry f_base) = none := by
  constructor <;> rfl

/-- C7: `find_word` is the linear most-recent-first scan — it returns exactly
    the first record in the `LATEST` chain whose name matches (hence the
    record returned always carries the searched name), `none` when no record
    matches, the just-appended record immediately after `push_primitive_word`,
    and, for a name defined several times, the most recently defined record
    (shadowing). -/
theorem C7_find_word_spec :
    (∀ d n, find_word d n = d.find? (fun w => decide (w.name = n)))
    ∧ (∀ d n w, find_word d n = some w → w.name = n)
    ∧ (∀ d n, (∀ w ∈ d, w.name ≠ n) → find_word d n = none)
    ∧ (∀ f nm fl p, find_word (push_primitive_word f nm fl p).dict nm
        = some { flags := fl, name := nm, code := p, body := [], addr := f.here })
    ∧ (∀ d₁ w d₂, (∀ w' ∈ d₁, w'.name ≠ w.name) →
        find_word (d₁ ++ w :: d₂) w.name = some w) := by
  have heq : ∀ d n, find_word d n = d.find? (fun w => decide (w.name = n)) := by
    intro d n
    induction d with
    | nil => rfl
    | cons w rest ih =>
      by_cases h : w.name = n <;> simp [find_word, List.find?_cons, h, ih]
  refine ⟨heq, ?_, ?_, ?_, ?_⟩
  · intro d n w h
    rw [heq] at h
    simpa using List.find?_some h
  · intro d n h
    rw [heq, List.find?_eq_none]
    intro w hw
    simpa using h w hw
  · intro f nm fl p
    simp [push_primitive_word, find_word]
  · intro d₁ w d₂ h
    induction d₁ with
    | nil => simp [find_word]
    | cons w' d₁ ih =>
      have hne : w'.name ≠ w.name := h w' (by simp)
      simp only [List.cons_append, find_word, if_neg hne]
      exact ih (fun x hx => h x (by simp [hx]))

/-- Witness for C7: a shadowed lookup in a concrete two-record dictionary
    returns the more recent record. -/
theorem C7_find_word_spec_witness :
    find_word ([{ flags := 0, name := strBytes "x", code := .dup, body := [],
                  addr := 0 }] ++ litw0 :: []) litw0.name = some litw0 :=
  C7_find_word_spec.2.2.2.2 _ litw0 [] (by decide)

/-! ### The tokenizer on a well-formed token -/

theorem nextNonBlank_cons {c : Nat} (l : List Nat) (h1 : isspace c = false)
    (h2 : c ≠ 35) : nextNonBlank (c :: l) = (some c, l) := by
  simp [nextNonBlank, nextNonBlankAux, h1, h2]

theorem collectLoop_token :
    ∀ (t : List Nat) (fuel : Nat) (c : Nat) (rest : List Nat),
      t.length < fuel → (∀ x ∈ t, isspace x = false ∧ x ≠ 35) →
      collectLoop fuel c (t ++ 32 :: rest) = (c :: t, t.length, some 32, rest) := by
  intro t
  induction t with
  | nil =>
    intro fuel c rest hf _
    obtain ⟨k, rfl⟩ : ∃ k, fuel = k + 1 := ⟨fuel - 1, by omega⟩
    simp [collectLoop, isspace]
  | cons d t ih =>
    intro fuel c rest hf hg
    obtain ⟨k, rfl⟩ : ∃ k, fuel = k + 1 := ⟨fuel - 1, by omega⟩
    have hd := hg d (by simp)
    have hrec := ih k d rest (by simp at hf; omega) (fun x hx => hg x (by simp [hx]))
    simp [collectLoop, hd.1, hd.2, hrec]

theorem word_token (f : forth_t) (t rest : List Nat) (h1 : t ≠ [])
    (h2 : t.length ≤ 64) (h3 : ∀ x ∈ t, isspace x = false ∧ x ≠ 35)
    (h4 : f.streams f.input_stream = t ++ 32 :: rest) :
    word f = push bufAddr { setStream f rest with buf := t } := by
  obtain ⟨c, t', rfl⟩ : ∃ c t', t = c :: t' := by
    cases t with
    | nil => exact absurd rfl h1
    | cons c t' => exact ⟨c, t', rfl⟩
  have hc := h3 c (by simp)
  have hnb : nextNonBlank (f.streams f.input_stream) = (some c, t' ++ 32 :: rest) := by
    rw [h4]
    exact nextNonBlank_cons _ hc.1 hc.2
  have hcl : collectLoop 64 c (t' ++ 32 :: rest) = (c :: t', t'.length, some 32, rest) :=
    collectLoop_token t' 64 c rest (by simp at h2; omega)
      (fun x hx => h3 x (by simp [hx]))
  unfold word
  rw [hnb]
  simp [hcl]

/-- On a stream whose next token is well-formed, one REPL iteration reduces to
    the classification step on that token, with the stream advanced past the
    delimiting space and the token in the static buffer. -/
theorem repl_step_token (exec : word_t → forth_t → M) (litw : word_t)
    (f : forth_t) (t rest : List Nat) (h1 : t ≠ []) (h2 : t.length ≤ 64)
    (h3 : ∀ x ∈ t, isspace x = false ∧ x ≠ 35)
    (h4 : f.streams f.input_stream = t ++ 32 :: rest)
    (hcap : f.stack.length < f.stack_size) :
    repl_step exec litw f
      = repl_classify exec litw t { setStream f rest with buf := t } := by
  have hw := word_token f t rest h1 h2 h3 h4
  have hpush : push bufAddr { setStream f rest with buf := t }
      = .ok { setStream f rest with buf := t, stack := bufAddr :: f.stack } := by
    simp [push, setStream, hcap]
  unfold repl_step
  rw [hw, hpush]
  simp [pop, stringAt, setStream]

/-- C1 (amended): when the tokenizer reaches end of stream with no characters
    collected it prints the EOF diagnostic and returns WITHOUT pushing (the
    engine state is unchanged except for the consumed stream, the diagnostic
    and the scratch buffer); the outer interpreter then pops the parameter
    stack unconditionally, so with an empty parameter stack the iteration
    aborts on the failed assertion in `pop` — an abnormal termination, not a
    successful exit, and no switch of input stream. -/
theorem C1_eof_no_push_then_abort :
    ∀ (exec : word_t → forth_t → M) (litw : word_t) (f : forth_t) (l : List Nat),
      nextNonBlank (f.streams f.input_stream) = (none, l) →
      f.stack = [] →
      word f = .ok { setStream f l with buf := [255], out := f.out ++ eof_diag }
      ∧ repl_step exec litw f
          = .error (.assertFail,
              { setStream f l with buf := [255], out := f.out ++ eof_diag }) := by
  intro exec litw f l hnb hstack
  have hw : word f
      = .ok { setStream f l with buf := [255], out := f.out ++ eof_diag } := by
    unfold word
    rw [hnb]
  refine ⟨hw, ?_⟩
  unfold repl_step
  rw [hw]
  simp [pop, setStream, hstack]

/-- Witness for C1 at the fresh engine with exhausted stdin. -/
theorem C1_eof_no_push_then_abort_witness :
    repl_step exec0 litw0 f_base
      = .error (.assertFail,
          { setStream f_base [] with buf := [255], out := f_base.out ++ eof_diag }) :=
  (C1_eof_no_push_then_abort exec0 litw0 f_base [] rfl rfl).2

/-- Counterexample for C1 as stated: at EOF the concrete run terminates by a
    failed assertion (abort, i.e. failure) — the engine never halts with
    success; the spec's predicted success exit does not occur.  The EOF
    diagnostic is the only output. -/
theorem C1_eof_success_cex :
    errKindOf (repl_step exec0 litw0 f_base) = some .assertFail
    ∧ errOutOf (repl_step exec0 litw0 f_base) = some eof_diag := by
  constructor <;> rfl

/-- C2 (amended): a token that neither parses as a number nor matches any
    dictionary word halts the REPL via the failed `assert(next)` in both
    states, but the message "failed to find X" is printed ONLY in COMPILE
    state; in NORMAL state the engine aborts with no message. -/
theorem C2_unknown_token :
    ∀ (exec : word_t → forth_t → M) (litw : word_t) (f : forth_t)
      (t rest : List Nat),
      t ≠ [] → t.length ≤ 64 → (∀ x ∈ t, isspace x = false ∧ x ≠ 35) →
      f.streams f.input_stream = t ++ 32 :: rest →
      f.stack.length < f.stack_size →
      parse_number t = none →
      find_word f.dict t = none →
      (f.state = .NORMAL_STATE →
        errKindOf (repl_step exec litw f) = some .assertFail
        ∧ errOutOf (repl_step exec litw f) = some f.out)
      ∧ (f.state = .COMPILE_STATE →
        errKindOf (repl_step exec litw f) = some .assertFail
        ∧ errOutOf (repl_step exec litw f) = some (f.out ++ failed_to_find_msg t)) := by
  intro exec litw f t rest h1 h2 h3 h4 hcap hpn hfw
  rw [repl_step_token exec litw f t rest h1 h2 h3 h4 hcap]
  constructor
  · intro hst
    simp [repl_classify, setStream, hst, hpn, hfw, errKindOf, errOutOf]
  · intro hst
    simp [repl_classify, setStream, hst, hpn, hfw, errKindOf, errOutOf]

/-- Witness for C2 in COMPILE state: the unknown token "qq" aborts after
    printing the message. -/
theorem C2_unknown_token_witness :
    errKindOf (repl_step exec0 litw0 f_c2c) = some .assertFail
    ∧ errOutOf (repl_step exec0 litw0 f_c2c)
        = some (f_c2c.out ++ failed_to_find_msg [113, 113]) :=
  (C2_unknown_token exec0 litw0 f_c2c [113, 113] [] (by decide) (by decide)
    (by decide) rfl (by decide) (by decide) (by decide)).2 rfl

/-- Counterexample for C2 as stated: in NORMAL state the engine aborts on the
    unknown token "qq" with NOTHING printed — the claimed "failed to find qq"
    message does not appear. -/
theorem C2_normal_no_message_cex :
    errKindOf (repl_step exec0 litw0 f_c2) = some .assertFail
    ∧ errOutOf (repl_step exec0 litw0 f_c2) = some [] := by
  constructor <;> rfl

/-! ### The engine state field across the primitive set -/

end Forth
